import Mathlib

/-!
Shallow embedding of the access-control subsystem of the `web-host` server
(`src/auth.js`, with configuration values from `src/config.js`).

Modelling conventions:
* JS objects used as string-keyed maps (`authorized_credentials`,
  `invalid_names`) are association lists `List (String × UserRecord)`;
  `Object.keys(m).length` is the list length.
* `pbkdf2(password, salt, 10000, 64, 'sha512')` is kept abstract as a
  parameter `deriveB64 : String → String → String` standing for
  `pbkdf2(...).toString('base64')` (first argument the salt, second the
  password); its one structural property used below is that a real
  derivation is the base64 rendering of a 64-byte key.
* Filesystem paths are lists of path segments counted from the filesystem
  root, so `path.dirname` is `List.dropLast` and `path.join(root, seg)`
  is `root ++ [seg]`.
* HTTP responses are collapsed into the `Outcome` type; `Outcome.crash`
  marks a request on which the source throws an uncaught `TypeError`
  (e.g. `data.toString()` with `data === undefined`), `Outcome.hang`
  marks the unbounded recursion of the directory walk at the filesystem
  root.
* `log.warning` / `log.error` calls are recorded as `LogEntry` values.
-/

namespace WebHost

/-- The observable result of one request through the auth module:
`granted` means the continuation `callback()` was invoked, the others are
the responses written instead. -/
inductive Outcome where
  | granted
  | loginPrompt
  | forbidden
  | internalError
  | crash
  | hang
deriving DecidableEq, Repr

/-- Log lines emitted by `auth.js` (`log.warning` / `log.error` calls),
identified by their message shape. -/
inductive LogEntry where
  | credentialsNotProvided
  | tooManyInvalidNames
  | wrongPassword (username : String) (attempt : Nat)
  | accountLocked (username : String)
  | authorizationFailure
  | httpsConfigurationError
  | unauthorizedAccess (username : Option String)
  | invalidUsernameRequest (username : String)
  | tooManyOpenAccountRequests
  | newAccountRequest (username : String)
deriving DecidableEq, Repr

/-- One in-memory credential record (`auth.js` lines 59-66): a real user
parsed from `user_credentials.txt`, or a shadow record for an unknown
name (lines 264-269). -/
structure UserRecord where
  salt : String
  pwHash : String
  locked : Bool
  loginAttempts : Nat
deriving DecidableEq, Repr

/-- The module-level mutable state of `auth.js`: the two string-keyed
objects `authorized_credentials` and `invalid_names`. -/
structure AuthState where
  authorized_credentials : List (String × UserRecord)
  invalid_names : List (String × UserRecord)
deriving DecidableEq, Repr

/-- JS property read `m[k]` on a string-keyed object. -/
def lookup : List (String × UserRecord) → String → Option UserRecord
  | [], _ => none
  | (k', v) :: rest, k => if k' = k then some v else lookup rest k

/-- JS in-place mutation of the record stored at key `k` (the source
mutates the object obtained from the map, so the binding is updated in
place; absent keys are untouched). -/
def setRecord : List (String × UserRecord) → String → UserRecord → List (String × UserRecord)
  | [], _, _ => []
  | (k', v') :: rest, k, v =>
      if k' = k then (k', v) :: rest else (k', v') :: setRecord rest k v

/-- `authorized_credentials[username] ?? invalid_names[username]`
(`auth.js` line 283). -/
def resolve (st : AuthState) (username : String) : Option UserRecord :=
  match lookup st.authorized_credentials username with
  | some u => some u
  | none => lookup st.invalid_names username

/-- `authorized_credentials[username]?.salt ?? ''` (`auth.js` line 274). -/
def saltOf (st : AuthState) (username : String) : String :=
  match lookup st.authorized_credentials username with
  | some u => u.salt
  | none => ""

/-- `Object.keys(authorized_credentials).length + Object.keys(invalid_names).length`
(`auth.js` line 256). -/
def usernameCount (st : AuthState) : Nat :=
  st.authorized_credentials.length + st.invalid_names.length

/-- The sentinel record created for an unknown username
(`auth.js` lines 264-269). -/
def shadowRecord : UserRecord :=
  { salt := " no salt ", pwHash := " no password hash ", locked := false, loginAttempts := 0 }

/-- JS `String.prototype.trim()`: strip leading and trailing whitespace.
(Defined here rather than via `String.trim` so that it is structurally
recursive and kernel-computable.) -/
def jsTrim (s : String) : String :=
  String.mk (((s.data.dropWhile Char.isWhitespace).reverse.dropWhile Char.isWhitespace).reverse)

/-- Does the second list start with the first? -/
def startsWithSeg : List Char → List Char → Bool
  | [], _ => true
  | _ :: _, [] => false
  | a :: as, b :: bs => a = b && startsWithSeg as bs

/-- Worker for `jsSplit`, structurally recursive on a fuel that bounds the
number of characters consumed; every step consumes at least one
character, so fuel `l.length + 1` never runs out. -/
def jsSplitGo (sep : List Char) : Nat → List Char → List Char → List (List Char)
  | _, cur, [] => [cur.reverse]
  | 0, cur, l => [cur.reverse ++ l]
  | fuel + 1, cur, c :: rest =>
      if sep ≠ [] ∧ startsWithSeg sep (c :: rest) then
        cur.reverse :: jsSplitGo sep fuel [] (List.drop sep.length (c :: rest))
      else
        jsSplitGo sep fuel (c :: cur) rest

/-- JS `String.prototype.split(sep)` for a non-empty string separator, as
used with `os.EOL` in `auth.js` lines 59 and 142. -/
def jsSplit (sep : String) (s : String) : List String :=
  (jsSplitGo sep.data (s.data.length + 1) [] s.data).map String.mk

/-- Result of the per-record comparison step. -/
structure LoginStepResult where
  outcome : Outcome
  user : UserRecord
  log : List LogEntry
deriving DecidableEq, Repr

/-- The hash comparison and lockout logic of `validateCredentials`
(`auth.js` lines 284-294): grant iff trimmed stored hash equals the
derived base64 hash and the record is not locked; otherwise increment
`loginAttempts` and set `locked` once the counter exceeds 3. -/
def loginStep (username derivedB64 : String) (user : UserRecord) : LoginStepResult :=
  if jsTrim user.pwHash = derivedB64 ∧ user.locked = false then
    { outcome := Outcome.granted, user := user, log := [] }
  else
    let attempts := user.loginAttempts + 1
    { outcome := Outcome.loginPrompt,
      user := { user with
                loginAttempts := attempts,
                locked := if attempts > 3 then true else user.locked },
      log := LogEntry.wrongPassword username attempts ::
             (if attempts > 3 then [LogEntry.accountLocked username] else []) }

/-- Result of a request through `validateCredentials` / `checkAuthorization`:
the outcome, the updated module state, and the log lines emitted. -/
structure AuthResult where
  outcome : Outcome
  state : AuthState
  log : List LogEntry
deriving DecidableEq, Repr

/-- `auth.js` lines 272-295: resolve the salt, derive the submitted
password's hash, then run the comparison step on the resolved record,
writing the mutated record back to whichever map held it. The `none/none`
case (record in neither map) would be a `TypeError` on
`user.pwHash` in the source; it is unreachable after the guard in
`validateCredentials`. Derivation failure (the `err` branch of the
`pbkdf2` callback) is not modelled: `deriveB64` is total. -/
def finishLogin (deriveB64 : String → String → String) (st : AuthState)
    (username password : String) : AuthResult :=
  let derived := deriveB64 (saltOf st username) password
  match lookup st.authorized_credentials username with
  | some user =>
      let s := loginStep username derived user
      { outcome := s.outcome,
        state := { st with authorized_credentials := setRecord st.authorized_credentials username s.user },
        log := s.log }
  | none =>
    match lookup st.invalid_names username with
    | some user =>
        let s := loginStep username derived user
        { outcome := s.outcome,
          state := { st with invalid_names := setRecord st.invalid_names username s.user },
          log := s.log }
    | none => { outcome := Outcome.crash, state := st, log := [] }

/-- Embedding of `validateCredentials` (`auth.js` lines 239-296).
`credentials` is the parsed Basic-auth pair; `none` models a missing or
malformed `Authorization` header (the `!credentials` early return). -/
def validateCredentials (deriveB64 : String → String → String) (totalUsernameLimit : Nat)
    (st : AuthState) (credentials : Option (String × String)) : AuthResult :=
  match credentials with
  | none =>
      { outcome := Outcome.loginPrompt, state := st, log := [LogEntry.credentialsNotProvided] }
  | some (username, password) =>
    if lookup st.authorized_credentials username = none ∧
       lookup st.invalid_names username = none then
      if usernameCount st > totalUsernameLimit then
        { outcome := Outcome.internalError, state := st, log := [LogEntry.tooManyInvalidNames] }
      else
        finishLogin deriveB64
          { st with invalid_names := (username, shadowRecord) :: st.invalid_names }
          username password
    else
      finishLogin deriveB64 st username password

/-- A sequence of login requests threaded through the module state. -/
def runLogins (deriveB64 : String → String → String) (totalUsernameLimit : Nat)
    (logins : List (String × String)) (st : AuthState) : AuthState :=
  logins.foldl (fun s c => (validateCredentials deriveB64 totalUsernameLimit s (some c)).state) st

/-- `getUserName` (`auth.js` lines 315-320) re-parses the same header the
credentials came from and returns `credentials[0]`; on a missing or
malformed header it returns a falsy value, modelled as `none`. -/
def getUserName : Option (String × String) → Option String
  | some (u, _) => some u
  | none => none

/-- Result of `fs.readFile` on a `.authorized_users` path: success with
the file's text, `ENOENT`, or any other error. -/
inductive ReadResult where
  | ok (content : String)
  | enoent
  | error
deriving DecidableEq, Repr

/-- The filesystem as seen by the authorization walk: what reading
`path.join(dir, ".authorized_users")` yields at each directory. -/
abbrev FileSys := List String → ReadResult

/-- Length of the longest common segment run, used by `path.relative`. -/
def commonLen : List String → List String → Nat
  | a :: as, b :: bs => if a = b then commonLen as bs + 1 else 0
  | _, _ => 0

/-- `path.relative(f, t)` on absolute segment lists: walk up out of the
uncommon part of `f`, then down into the uncommon part of `t`. -/
def pathRelative (f t : List String) : List String :=
  let n := commonLen f t
  List.replicate (f.length - n) ".." ++ t.drop n

/-- `path.basename` of an absolute path; `path.basename('/') = ''`. -/
def pathBasename (p : List String) : String :=
  p.getLastD ""

/-- Render a relative segment list the way `path.relative` returns it, so
the source's string comparison `path.relative(...) === path.basename(root)`
can be taken verbatim. -/
def joinSegs : List String → String
  | [] => ""
  | [s] => s
  | s :: rest => s ++ "/" ++ joinSegs rest

/-- `auth.js` lines 131-149: the part of `checkAuthorization` that runs
once `fs.readFile` did not report `ENOENT`. `data = none` models the
non-`ENOENT` error case, in which `data` is `undefined` in the source and
`data.toString()` throws once credential validation succeeds. -/
def authFound (eol : String) (useHttps : Bool) (deriveB64 : String → String → String)
    (totalUsernameLimit : Nat) (credentials : Option (String × String))
    (st : AuthState) (data : Option String) : AuthResult :=
  if useHttps = false then
    { outcome := Outcome.internalError, state := st,
      log := [LogEntry.httpsConfigurationError] }
  else
    let r := validateCredentials deriveB64 totalUsernameLimit st credentials
    match r.outcome with
    | Outcome.granted =>
      match data with
      | some content =>
        match getUserName credentials with
        | some name =>
            if (jsSplit eol content).contains name then r
            else { outcome := Outcome.forbidden, state := r.state,
                   log := r.log ++ [LogEntry.unauthorizedAccess (some name)] }
        | none =>
            { outcome := Outcome.forbidden, state := r.state,
              log := r.log ++ [LogEntry.unauthorizedAccess none] }
      | none => { outcome := Outcome.crash, state := r.state, log := r.log }
    | _ => r

/-- The recursion of `checkAuthorization` (`auth.js` lines 115-151),
made structural on a fuel argument. Each recursive call of the source
shortens `checkPath` by one segment (`path.dirname`), except at the
filesystem root where `path.dirname('/') === '/'` recurses forever; with
fuel `checkPath.length + 1` the fuel runs out exactly in that
non-terminating case, which is reported as `Outcome.hang`. -/
def checkAuthorizationGo (fsm : FileSys) (eol : String) (useHttps : Bool)
    (deriveB64 : String → String → String) (totalUsernameLimit : Nat)
    (credentials : Option (String × String)) (root : List String)
    (st : AuthState) : Nat → List String → AuthResult
  | 0, _ => { outcome := Outcome.hang, state := st, log := [] }
  | fuel + 1, checkPath =>
    match fsm checkPath with
    | ReadResult.enoent =>
        if joinSegs (pathRelative checkPath root) = pathBasename root then
          { outcome := Outcome.granted, state := st, log := [] }
        else
          checkAuthorizationGo fsm eol useHttps deriveB64 totalUsernameLimit credentials root st
            fuel checkPath.dropLast
    | ReadResult.ok content =>
        authFound eol useHttps deriveB64 totalUsernameLimit credentials st (some content)
    | ReadResult.error =>
        let r := authFound eol useHttps deriveB64 totalUsernameLimit credentials st none
        { r with log := LogEntry.authorizationFailure :: r.log }

/-- Embedding of `module.exports.authorize = checkAuthorization`
(`auth.js` lines 115-151). -/
def checkAuthorization (fsm : FileSys) (eol : String) (useHttps : Bool)
    (deriveB64 : String → String → String) (totalUsernameLimit : Nat)
    (credentials : Option (String × String)) (root : List String)
    (st : AuthState) (checkPath : List String) : AuthResult :=
  checkAuthorizationGo fsm eol useHttps deriveB64 totalUsernameLimit credentials root st
    (checkPath.length + 1) checkPath

/-- Does the walk of `checkAuthorization`, started at `checkPath`, reach a
directory whose `.authorized_users` file reads successfully? Mirrors the
recursion of `checkAuthorizationGo`. -/
def findsManifestGo (fsm : FileSys) (root : List String) : Nat → List String → Bool
  | 0, _ => false
  | fuel + 1, checkPath =>
    match fsm checkPath with
    | ReadResult.ok _ => true
    | ReadResult.error => false
    | ReadResult.enoent =>
        if joinSegs (pathRelative checkPath root) = pathBasename root then false
        else findsManifestGo fsm root fuel checkPath.dropLast

/-- See `findsManifestGo`; fuel fixed as in `checkAuthorization`. -/
def findsManifest (fsm : FileSys) (root checkPath : List String) : Bool :=
  findsManifestGo fsm root (checkPath.length + 1) checkPath

/-- Does the walk of `checkAuthorization`, started at `checkPath`, reach a
directory whose `.authorized_users` file fails to read with an error other
than `ENOENT`? Mirrors the recursion of `checkAuthorizationGo`. -/
def hitsReadErrorGo (fsm : FileSys) (root : List String) : Nat → List String → Bool
  | 0, _ => false
  | fuel + 1, checkPath =>
    match fsm checkPath with
    | ReadResult.ok _ => false
    | ReadResult.error => true
    | ReadResult.enoent =>
        if joinSegs (pathRelative checkPath root) = pathBasename root then false
        else hitsReadErrorGo fsm root fuel checkPath.dropLast

/-- See `hitsReadErrorGo`; fuel fixed as in `checkAuthorization`. -/
def hitsReadError (fsm : FileSys) (root checkPath : List String) : Bool :=
  hitsReadErrorGo fsm root (checkPath.length + 1) checkPath

/-- Membership of a character in the class of the regular expression
`/[^A-z^0-9]/` (`auth.js` line 189): the range `A-z` (codes 65-122, which
also contains `[ \ ] ^ _` and the backtick), the literal caret, and the
digits. -/
def regexCharInClass (c : Char) : Bool :=
  (65 ≤ c.toNat && c.toNat ≤ 122) || c = '^' || (48 ≤ c.toNat && c.toNat ≤ 57)

/-- The username rejection test of `sendAccountForm`
(`auth.js` line 189): `/[^A-z^0-9]/.test(body.username) || body.username.length > 64`. -/
def usernameValidationFails (username : String) : Bool :=
  username.data.any (fun c => !(regexCharInClass c)) || username.length > 64

/-- HTTP response of the account-request POST handler. -/
inductive AccountResponse where
  | insecure400
  | invalidUsername400
  | tooManyOpen500
  | derivationError500
  | accountRequested200
deriving DecidableEq, Repr

/-- Observable effects of one POST to `/account`: the response sent,
whether `getPasswordHash` was invoked, whether a record was appended to
`account_creation_requests.txt`, and the value of the in-memory
`openAccountRequests` counter afterwards. -/
structure AccountPostResult where
  response : AccountResponse
  hashDerived : Bool
  appended : Bool
  openAccountRequests : Nat
  log : List LogEntry
deriving DecidableEq, Repr

/-- Embedding of the POST path of `sendAccountForm` (`auth.js` lines
158-227): HTTPS gate, username validation, open-request ceiling, hash
derivation, append, counter increment. `deriveOk = false` models the
`err` branch of the `pbkdf2` callback. The appended record's exact text
(`path.normalize`d username, fresh salt, base64 hash) is not modelled,
only whether an append happened. -/
def sendAccountPost (useHttps : Bool) (openAccountRequests : Nat)
    (username password : String) (deriveOk : Bool) : AccountPostResult :=
  if useHttps = false then
    { response := AccountResponse.insecure400, hashDerived := false, appended := false,
      openAccountRequests := openAccountRequests, log := [] }
  else if usernameValidationFails username then
    { response := AccountResponse.invalidUsername400, hashDerived := false, appended := false,
      openAccountRequests := openAccountRequests,
      log := [LogEntry.invalidUsernameRequest username] }
  else if openAccountRequests > 100 then
    { response := AccountResponse.tooManyOpen500, hashDerived := false, appended := false,
      openAccountRequests := openAccountRequests, log := [LogEntry.tooManyOpenAccountRequests] }
  else if deriveOk then
    { response := AccountResponse.accountRequested200, hashDerived := true, appended := true,
      openAccountRequests := openAccountRequests + 1,
      log := [LogEntry.newAccountRequest username] }
  else
    { response := AccountResponse.derivationError500, hashDerived := true, appended := false,
      openAccountRequests := openAccountRequests, log := [] }

/-- The base64 alphabet used by Node's `Buffer.toString('base64')`. -/
def base64Alphabet : List Char :=
  "ABCDEFGHIJKLMNOPQRSTUVWXYZabcdefghijklmnopqrstuvwxyz0123456789+/".toList

/-- Digit of the base64 alphabet. -/
def base64Char (n : Nat) : Char := base64Alphabet.getD n 'A'

/-- Standard base64 of a byte list (three bytes to four digits, `=`
padding), as produced by `pwHash.toString('base64')` in
`validateCredentials` and `sendAccountForm`. -/
def base64EncodeChars : List Nat → List Char
  | [] => []
  | [a] => [base64Char (a / 4), base64Char (a % 4 * 16), '=', '=']
  | [a, b] => [base64Char (a / 4), base64Char (a % 4 * 16 + b / 16), base64Char (b % 16 * 4), '=']
  | a :: b :: c :: rest =>
      base64Char (a / 4) :: base64Char (a % 4 * 16 + b / 16) ::
      base64Char (b % 16 * 4 + c / 64) :: base64Char (c % 64) :: base64EncodeChars rest

/-- See `base64EncodeChars`. -/
def base64Encode (bytes : List Nat) : String := String.mk (base64EncodeChars bytes)

/-- A string is a possible output of `pbkdf2(password, salt, 10000, 64,
'sha512')` rendered in base64 (`getPasswordHash`, `auth.js` lines
304-306): the base64 encoding of some 64-byte key. -/
def IsDerivedHash (s : String) : Prop :=
  ∃ bytes : List Nat, bytes.length = 64 ∧ s = base64Encode bytes

/-! ### Helper lemmas about the map operations -/

theorem lookup_setRecord_self (m : List (String × UserRecord)) (k : String) (v : UserRecord) :
    lookup (setRecord m k v) k = (lookup m k).map (fun _ => v) := by
  induction m with
  | nil => rfl
  | cons hd tl ih =>
    obtain ⟨k', v'⟩ := hd
    by_cases h : k' = k
    · simp [setRecord, lookup, h]
    · simp [setRecord, lookup, h, ih]

theorem lookup_setRecord_ne (m : List (String × UserRecord)) (k n : String) (v : UserRecord)
    (h : k ≠ n) : lookup (setRecord m k v) n = lookup m n := by
  induction m with
  | nil => rfl
  | cons hd tl ih =>
    obtain ⟨k', v'⟩ := hd
    by_cases hk : k' = k
    · subst hk
      simp [setRecord, lookup, h, ih]
    · simp [setRecord, lookup, hk, ih]

theorem length_setRecord (m : List (String × UserRecord)) (k : String) (v : UserRecord) :
    (setRecord m k v).length = m.length := by
  induction m with
  | nil => rfl
  | cons hd tl ih =>
    obtain ⟨k', v'⟩ := hd
    by_cases h : k' = k <;> simp [setRecord, h, ih]

theorem lookup_cons_ne (m : List (String × UserRecord)) (k n : String) (v : UserRecord)
    (h : k ≠ n) : lookup ((k, v) :: m) n = lookup m n := by
  simp [lookup, h]

/-! ### Helper lemmas about `loginStep` -/

theorem loginStep_salt (un d : String) (r : UserRecord) :
    (loginStep un d r).user.salt = r.salt := by
  unfold loginStep; split <;> rfl

theorem loginStep_pwHash (un d : String) (r : UserRecord) :
    (loginStep un d r).user.pwHash = r.pwHash := by
  unfold loginStep; split <;> rfl

theorem loginStep_locked_mono (un d : String) (r : UserRecord) (h : r.locked = true) :
    (loginStep un d r).user.locked = true := by
  unfold loginStep
  split
  · exact h
  · simp only
    split <;> simp [h]

theorem loginStep_attempts_le (un d : String) (r : UserRecord) :
    r.loginAttempts ≤ (loginStep un d r).user.loginAttempts := by
  unfold loginStep
  split
  · exact Nat.le_refl _
  · exact Nat.le_succ _

theorem loginStep_locked_out (un d : String) (r : UserRecord) (h : r.locked = true) :
    (loginStep un d r).outcome = Outcome.loginPrompt := by
  unfold loginStep
  rw [if_neg]
  rintro ⟨-, hfalse⟩
  rw [h] at hfalse
  exact Bool.noConfusion hfalse

theorem loginStep_fail (un d : String) (r : UserRecord) (h : jsTrim r.pwHash ≠ d) :
    loginStep un d r =
      { outcome := Outcome.loginPrompt,
        user := { r with loginAttempts := r.loginAttempts + 1,
                         locked := if r.loginAttempts + 1 > 3 then true else r.locked },
        log := LogEntry.wrongPassword un (r.loginAttempts + 1) ::
               (if r.loginAttempts + 1 > 3 then [LogEntry.accountLocked un] else []) } := by
  unfold loginStep
  rw [if_neg]
  rintro ⟨heq, -⟩
  exact h heq

/-! ### Characterization of `validateCredentials` on a known username -/

theorem finishLogin_auth (d : String → String → String) (st : AuthState) (u p : String)
    (r : UserRecord) (hlA : lookup st.authorized_credentials u = some r) :
    finishLogin d st u p =
      { outcome := (loginStep u (d r.salt p) r).outcome,
        state := { st with authorized_credentials :=
                     setRecord st.authorized_credentials u (loginStep u (d r.salt p) r).user },
        log := (loginStep u (d r.salt p) r).log } := by
  simp [finishLogin, saltOf, hlA]

theorem finishLogin_inv (d : String → String → String) (st : AuthState) (u p : String)
    (r : UserRecord) (hlA : lookup st.authorized_credentials u = none)
    (hlI : lookup st.invalid_names u = some r) :
    finishLogin d st u p =
      { outcome := (loginStep u (d "" p) r).outcome,
        state := { st with invalid_names :=
                     setRecord st.invalid_names u (loginStep u (d "" p) r).user },
        log := (loginStep u (d "" p) r).log } := by
  simp [finishLogin, saltOf, hlA, hlI]

theorem resolve_auth (st : AuthState) (u : String) (r : UserRecord)
    (h : lookup st.authorized_credentials u = some r) : resolve st u = some r := by
  simp [resolve, h]

theorem resolve_inv (st : AuthState) (u : String)
    (h : lookup st.authorized_credentials u = none) :
    resolve st u = lookup st.invalid_names u := by
  simp [resolve, h]

theorem finishLogin_known (d : String → String → String) (st : AuthState)
    (u p : String) (r : UserRecord) (h : resolve st u = some r) :
    (finishLogin d st u p).outcome = (loginStep u (d (saltOf st u) p) r).outcome ∧
    resolve (finishLogin d st u p).state u = some (loginStep u (d (saltOf st u) p) r).user ∧
    saltOf (finishLogin d st u p).state u = saltOf st u ∧
    (∀ n, n ≠ u → resolve (finishLogin d st u p).state n = resolve st n) := by
  cases hlA : lookup st.authorized_credentials u with
  | some user =>
    have hr : user = r := by
      rw [resolve, hlA] at h
      exact Option.some.inj h
    subst hr
    have hsalt : saltOf st u = user.salt := by simp [saltOf, hlA]
    rw [finishLogin_auth d st u p user hlA, hsalt]
    refine ⟨rfl, ?_, ?_, ?_⟩
    · simp [resolve, lookup_setRecord_self, hlA]
    · simp [saltOf, lookup_setRecord_self, hlA, loginStep_salt]
    · intro n hn
      simp [resolve, lookup_setRecord_ne _ _ _ _ (fun he => hn he.symm)]
  | none =>
    cases hlI : lookup st.invalid_names u with
    | none =>
      rw [resolve, hlA, hlI] at h
      exact absurd h (by simp)
    | some user =>
      have hr : user = r := by
        rw [resolve, hlA, hlI] at h
        exact Option.some.inj h
      subst hr
      have hsalt : saltOf st u = "" := by simp [saltOf, hlA]
      rw [finishLogin_inv d st u p user hlA hlI, hsalt]
      refine ⟨rfl, ?_, ?_, ?_⟩
      · simp [resolve, hlA, lookup_setRecord_self, hlI]
      · simp [saltOf, hlA]
      · intro n hn
        simp [resolve, lookup_setRecord_ne _ _ _ _ (fun he => hn he.symm)]

theorem resolve_eq_none (st : AuthState) (u : String) :
    resolve st u = none ↔
      lookup st.authorized_credentials u = none ∧ lookup st.invalid_names u = none := by
  rw [resolve]
  cases lookup st.authorized_credentials u <;> simp

theorem validate_known (d : String → String → String) (l : Nat) (st : AuthState)
    (u p : String) (r : UserRecord) (h : resolve st u = some r) :
    (validateCredentials d l st (some (u, p))).outcome =
        (loginStep u (d (saltOf st u) p) r).outcome ∧
    resolve (validateCredentials d l st (some (u, p))).state u =
        some (loginStep u (d (saltOf st u) p) r).user ∧
    saltOf (validateCredentials d l st (some (u, p))).state u = saltOf st u ∧
    (∀ n, n ≠ u → resolve (validateCredentials d l st (some (u, p))).state n = resolve st n) := by
  have hguard : ¬ (lookup st.authorized_credentials u = none ∧
      lookup st.invalid_names u = none) := by
    rintro ⟨h1, h2⟩
    rw [resolve, h1, h2] at h
    exact Option.noConfusion h
  have hv : validateCredentials d l st (some (u, p)) = finishLogin d st u p := by
    simp [validateCredentials, hguard]
  rw [hv]
  exact finishLogin_known d st u p r h

/-- On a locked record, `validateCredentials` always answers with the
login challenge, whatever the submitted password. -/
theorem validate_locked_out (d : String → String → String) (l : Nat) (st : AuthState)
    (u p : String) (r : UserRecord) (h : resolve st u = some r) (hl : r.locked = true) :
    (validateCredentials d l st (some (u, p))).outcome = Outcome.loginPrompt := by
  rw [(validate_known d l st u p r h).1]
  exact loginStep_locked_out _ _ _ hl

/-- On a mismatching password, `validateCredentials` answers with the
login challenge and bumps the record's attempt counter, locking it once
the counter exceeds 3. -/
theorem validate_fail (d : String → String → String) (l : Nat) (st : AuthState)
    (u p : String) (r : UserRecord) (h : resolve st u = some r)
    (hne : jsTrim r.pwHash ≠ d (saltOf st u) p) :
    (validateCredentials d l st (some (u, p))).outcome = Outcome.loginPrompt ∧
    resolve (validateCredentials d l st (some (u, p))).state u =
      some { r with loginAttempts := r.loginAttempts + 1,
                    locked := if r.loginAttempts + 1 > 3 then true else r.locked } ∧
    saltOf (validateCredentials d l st (some (u, p))).state u = saltOf st u := by
  obtain ⟨h1, h2, h3, -⟩ := validate_known d l st u p r h
  rw [loginStep_fail _ _ _ hne] at h1 h2
  exact ⟨h1, h2, h3⟩

/-- A record visible before a `validateCredentials` call is still visible
after it, with monotone `locked` and `loginAttempts` and unchanged
`salt`/`pwHash` — the only mutation path is `loginStep` on that record. -/
theorem validate_mono (d : String → String → String) (l : Nat) (st : AuthState)
    (creds : Option (String × String)) (n : String) (r : UserRecord)
    (h : resolve st n = some r) :
    ∃ r', resolve (validateCredentials d l st creds).state n = some r' ∧
      (r.locked = true → r'.locked = true) ∧
      r.loginAttempts ≤ r'.loginAttempts ∧
      r'.salt = r.salt ∧ r'.pwHash = r.pwHash := by
  cases creds with
  | none =>
    exact ⟨r, h, fun hl => hl, Nat.le_refl _, rfl, rfl⟩
  | some c =>
    obtain ⟨u, p⟩ := c
    by_cases hk : lookup st.authorized_credentials u = none ∧ lookup st.invalid_names u = none
    · have hnu : n ≠ u := by
        rintro rfl
        rw [resolve, hk.1, hk.2] at h
        exact Option.noConfusion h
      by_cases hcount : usernameCount st > l
      · have hv : (validateCredentials d l st (some (u, p))).state = st := by
          simp [validateCredentials, hk, hcount]
        exact ⟨r, by rw [hv]; exact h, fun hl => hl, Nat.le_refl _, rfl, rfl⟩
      · have hv : validateCredentials d l st (some (u, p)) =
            finishLogin d { st with invalid_names := (u, shadowRecord) :: st.invalid_names }
              u p := by
          simp [validateCredentials, hk, hcount]
        have hres : resolve { st with invalid_names := (u, shadowRecord) :: st.invalid_names }
            u = some shadowRecord := by
          simp [resolve, hk.1, lookup]
        have hrn : resolve { st with invalid_names := (u, shadowRecord) :: st.invalid_names }
            n = some r := by
          rw [resolve] at h ⊢
          simpa [lookup_cons_ne _ _ _ _ (fun he => hnu he.symm)] using h
        obtain ⟨-, -, -, hall⟩ :=
          finishLogin_known d { st with invalid_names := (u, shadowRecord) :: st.invalid_names }
            u p shadowRecord hres
        refine ⟨r, ?_, fun hl => hl, Nat.le_refl _, rfl, rfl⟩
        rw [hv, hall n hnu, hrn]
    · have hsome : ∃ r0, resolve st u = some r0 := by
        cases hr0 : resolve st u with
        | none => exact absurd ((resolve_eq_none st u).1 hr0) hk
        | some r0 => exact ⟨r0, rfl⟩
      obtain ⟨r0, hr0⟩ := hsome
      by_cases hnu : n = u
      · subst hnu
        have hrr : r0 = r := by rw [hr0] at h; exact Option.some.inj h
        subst hrr
        obtain ⟨-, h2, -, -⟩ := validate_known d l st n p r0 hr0
        exact ⟨(loginStep n (d (saltOf st n) p) r0).user, h2,
          loginStep_locked_mono _ _ _, loginStep_attempts_le _ _ _,
          loginStep_salt _ _ _, loginStep_pwHash _ _ _⟩
      · obtain ⟨-, -, -, hall⟩ := validate_known d l st u p r0 hr0
        exact ⟨r, by rw [hall n hnu]; exact h, fun hl => hl, Nat.le_refl _, rfl, rfl⟩

/-! ### Base64 length facts -/

theorem base64EncodeChars_length (l : List Nat) :
    (base64EncodeChars l).length = 4 * ((l.length + 2) / 3) := by
  match l with
  | [] => rfl
  | [a] => simp [base64EncodeChars]
  | [a, b] => simp [base64EncodeChars]
  | a :: b :: c :: rest =>
    simp only [base64EncodeChars, List.length_cons, base64EncodeChars_length rest]
    omega

theorem base64Encode_length64 (bytes : List Nat) (h : bytes.length = 64) :
    (base64Encode bytes).length = 88 := by
  have hmk : ∀ cs : List Char, (String.mk cs).length = cs.length := fun _ => rfl
  rw [base64Encode, hmk, base64EncodeChars_length, h]

/-- The sentinel hash of a shadow record, trimmed as the comparison in
`validateCredentials` trims it, can never equal a base64-rendered 64-byte
derived key: the lengths differ (16 vs 88). -/
theorem sentinel_ne_derived (s : String) (h : IsDerivedHash s) :
    jsTrim shadowRecord.pwHash ≠ s := by
  obtain ⟨bytes, hlen, rfl⟩ := h
  intro he
  have h16 : (jsTrim shadowRecord.pwHash).length = 16 := by decide
  rw [he, base64Encode_length64 bytes hlen] at h16
  exact absurd h16 (by decide)

/-! ### Helper lemmas about the authorization walk -/

/-- In the non-`ENOENT` error case (`data = undefined`), the request is
never granted: without HTTPS it is a 500, with failed credential
validation it is that failure's response, and with successful validation
`data.toString()` throws. -/
theorem authFound_none_not_granted (eol : String) (useHttps : Bool)
    (d : String → String → String) (l : Nat) (creds : Option (String × String))
    (st : AuthState) :
    (authFound eol useHttps d l creds st none).outcome ≠ Outcome.granted := by
  unfold authFound
  split
  · intro hc; exact Outcome.noConfusion hc
  · cases hro : (validateCredentials d l st creds).outcome <;> simp [hro]

theorem findsManifestGo_internalError (fsm : FileSys) (eol : String)
    (d : String → String → String) (l : Nat) (creds : Option (String × String))
    (root : List String) (st : AuthState) :
    ∀ fuel cp, findsManifestGo fsm root fuel cp = true →
      (checkAuthorizationGo fsm eol false d l creds root st fuel cp).outcome =
        Outcome.internalError := by
  intro fuel
  induction fuel with
  | zero =>
    intro cp h
    exact absurd h (by simp [findsManifestGo])
  | succ fuel ih =>
    intro cp h
    rw [findsManifestGo] at h
    rw [checkAuthorizationGo]
    cases hf : fsm cp with
    | ok content =>
      simp only [hf]
      simp [authFound]
    | error =>
      rw [hf] at h
      exact absurd h (by simp)
    | enoent =>
      rw [hf] at h
      simp only [hf]
      split
      · rw [if_pos (by assumption)] at h
        exact absurd h (by simp)
      · rw [if_neg (by assumption)] at h
        exact ih cp.dropLast h

theorem hitsReadErrorGo_not_granted (fsm : FileSys) (eol : String) (useHttps : Bool)
    (d : String → String → String) (l : Nat) (creds : Option (String × String))
    (root : List String) (st : AuthState) :
    ∀ fuel cp, hitsReadErrorGo fsm root fuel cp = true →
      LogEntry.authorizationFailure ∈
        (checkAuthorizationGo fsm eol useHttps d l creds root st fuel cp).log ∧
      (checkAuthorizationGo fsm eol useHttps d l creds root st fuel cp).outcome ≠
        Outcome.granted := by
  intro fuel
  induction fuel with
  | zero =>
    intro cp h
    exact absurd h (by simp [hitsReadErrorGo])
  | succ fuel ih =>
    intro cp h
    rw [hitsReadErrorGo] at h
    rw [checkAuthorizationGo]
    cases hf : fsm cp with
    | ok content =>
      rw [hf] at h
      exact absurd h (by simp)
    | error =>
      simp only [hf]
      exact ⟨List.mem_cons_self _ _, authFound_none_not_granted eol useHttps d l creds st⟩
    | enoent =>
      rw [hf] at h
      simp only [hf]
      split
      · rw [if_pos (by assumption)] at h
        exact absurd h (by simp)
      · rw [if_neg (by assumption)] at h
        exact ih cp.dropLast h

/-- A locked record stays locked (and visible) across any further
sequence of login requests. -/
theorem runLogins_locked (d : String → String → String) (l : Nat) :
    ∀ (rest : List (String × String)) (st : AuthState) (u : String) (r : UserRecord),
      resolve st u = some r → r.locked = true →
      ∃ r', resolve (runLogins d l rest st) u = some r' ∧ r'.locked = true := by
  intro rest
  induction rest with
  | nil => exact fun st u r h hl => ⟨r, h, hl⟩
  | cons c cs ih =>
    intro st u r h hl
    obtain ⟨r', h1, h2, -, -, -⟩ := validate_mono d l st (some c) u r h
    exact ih (validateCredentials d l st (some c)).state u r' h1 (h2 hl)

/-- C1: For every identity (real or shadow) starting from a fresh record
(zero attempts, unlocked), after exactly 4 consecutive failed login
attempts the record is locked (the counter, now 4, exceeded 3), and the
5th and every later attempt — with any password, including the correct
one — is denied with the login challenge for the rest of the process
lifetime. -/
theorem C1_lockout_after_four_failures
    (d : String → String → String) (l : Nat) (st0 : AuthState) (u : String)
    (r : UserRecord) (h : resolve st0 u = some r)
    (h0 : r.loginAttempts = 0) (hl : r.locked = false)
    (p1 p2 p3 p4 : String)
    (hw1 : jsTrim r.pwHash ≠ d (saltOf st0 u) p1)
    (hw2 : jsTrim r.pwHash ≠ d (saltOf st0 u) p2)
    (hw3 : jsTrim r.pwHash ≠ d (saltOf st0 u) p3)
    (hw4 : jsTrim r.pwHash ≠ d (saltOf st0 u) p4) :
    (∃ r4, resolve (runLogins d l [(u, p1), (u, p2), (u, p3), (u, p4)] st0) u = some r4 ∧
       r4.locked = true) ∧
    ∀ rest p,
      (validateCredentials d l
          (runLogins d l rest (runLogins d l [(u, p1), (u, p2), (u, p3), (u, p4)] st0))
          (some (u, p))).outcome = Outcome.loginPrompt := by
  obtain ⟨-, hr1, hs1⟩ := validate_fail d l st0 u p1 r h hw1
  obtain ⟨-, hr2, hs2⟩ :=
    validate_fail d l (validateCredentials d l st0 (some (u, p1))).state u p2 _ hr1
      (by show jsTrim r.pwHash ≠ _; rw [hs1]; exact hw2)
  obtain ⟨-, hr3, hs3⟩ :=
    validate_fail d l
      (validateCredentials d l (validateCredentials d l st0 (some (u, p1))).state
        (some (u, p2))).state u p3 _ hr2
      (by show jsTrim r.pwHash ≠ _; rw [hs2, hs1]; exact hw3)
  obtain ⟨-, hr4, -⟩ :=
    validate_fail d l
      (validateCredentials d l
        (validateCredentials d l (validateCredentials d l st0 (some (u, p1))).state
          (some (u, p2))).state (some (u, p3))).state u p4 _ hr3
      (by show jsTrim r.pwHash ≠ _; rw [hs3, hs2, hs1]; exact hw4)
  have hrun : runLogins d l [(u, p1), (u, p2), (u, p3), (u, p4)] st0 =
      (validateCredentials d l
        (validateCredentials d l
          (validateCredentials d l (validateCredentials d l st0 (some (u, p1))).state
            (some (u, p2))).state (some (u, p3))).state (some (u, p4))).state := rfl
  have hfinal : ∃ r4,
      resolve (runLogins d l [(u, p1), (u, p2), (u, p3), (u, p4)] st0) u = some r4 ∧
      r4.locked = true := by
    refine ⟨_, by rw [hrun]; exact hr4, ?_⟩
    show (if r.loginAttempts + 1 + 1 + 1 + 1 > 3 then true
      else (if r.loginAttempts + 1 + 1 + 1 > 3 then true
        else (if r.loginAttempts + 1 + 1 > 3 then true
          else (if r.loginAttempts + 1 > 3 then true else r.locked)))) = true
    exact if_pos (by omega)
  refine ⟨hfinal, ?_⟩
  intro rest p
  obtain ⟨r4, hres4, hl4⟩ := hfinal
  obtain ⟨r', hres', hl'⟩ := runLogins_locked d l rest _ u r4 hres4 hl4
  exact validate_locked_out d l _ u p r' hres' hl'

/-! ### Concrete instances used in closed statements -/

/-- A derivation function for concrete instances: the derived hash of a
password is the password itself. -/
def passthruDerive : String → String → String := fun _ p => p

/-- A derivation function for concrete instances whose output has the
shape of a real `pbkdf2`-then-base64 result (88 characters). -/
def constDerive : String → String → String := fun _ _ => base64Encode (List.replicate 64 0)

theorem constDerive_isDerived : ∀ s q, IsDerivedHash (constDerive s q) :=
  fun _ _ => ⟨List.replicate 64 0, by simp, rfl⟩

/-- One real user `alice` (salt `"s"`, stored hash `"H"`, unlocked, zero
attempts), no shadow records. -/
def aliceState : AuthState := ⟨[("alice", ⟨"s", "H", false, 0⟩)], []⟩

/-- `alice` again, but already locked with 2 recorded attempts. -/
def lockedAliceState : AuthState := ⟨[("alice", ⟨"s", "H", true, 2⟩)], []⟩

/-- No real users, one shadow record for `eve`. -/
def shadowState : AuthState := ⟨[], [("eve", shadowRecord)]⟩

/-- Witness for C1 at a concrete input: four wrong passwords `"w"`
against `alice` lock the record, and a fifth attempt with the correct
password (`"H"`, which matches the stored hash under `passthruDerive`) is
still denied. -/
theorem C1_lockout_witness :
    (∃ r4, resolve (runLogins passthruDerive 200
        [("alice", "w"), ("alice", "w"), ("alice", "w"), ("alice", "w")] aliceState) "alice" =
          some r4 ∧ r4.locked = true) ∧
    (validateCredentials passthruDerive 200
        (runLogins passthruDerive 200 []
          (runLogins passthruDerive 200
            [("alice", "w"), ("alice", "w"), ("alice", "w"), ("alice", "w")] aliceState))
        (some ("alice", "H"))).outcome = Outcome.loginPrompt := by
  have h := C1_lockout_after_four_failures passthruDerive 200 aliceState "alice"
    ⟨"s", "H", false, 0⟩ (by decide) rfl rfl "w" "w" "w" "w"
    (by decide) (by decide) (by decide) (by decide)
  exact ⟨h.1, h.2 [] "H"⟩

/-- C8: For every record visible in the state (credential or shadow), a
`validateCredentials` call never transitions `locked` from true to false
and never decreases `loginAttempts`; in particular a successful
authentication does not reset the counter. -/
theorem C8_locked_one_way
    (d : String → String → String) (l : Nat) (st : AuthState)
    (creds : Option (String × String)) (n : String) (r : UserRecord)
    (h : resolve st n = some r) :
    ∃ r', resolve (validateCredentials d l st creds).state n = some r' ∧
      (r.locked = true → r'.locked = true) ∧
      r.loginAttempts ≤ r'.loginAttempts := by
  obtain ⟨r', h1, h2, h3, -, -⟩ := validate_mono d l st creds n r h
  exact ⟨r', h1, h2, h3⟩

/-- Witness for C8 at a concrete input: a locked record with 2 attempts,
presented with the correct password, stays locked with at least 2
attempts. -/
theorem C8_locked_one_way_witness :
    ∃ r', resolve (validateCredentials passthruDerive 200 lockedAliceState
        (some ("alice", "H"))).state "alice" = some r' ∧
      ((⟨"s", "H", true, 2⟩ : UserRecord).locked = true → r'.locked = true) ∧
      (⟨"s", "H", true, 2⟩ : UserRecord).loginAttempts ≤ r'.loginAttempts :=
  C8_locked_one_way passthruDerive 200 lockedAliceState (some ("alice", "H")) "alice"
    ⟨"s", "H", true, 2⟩ (by decide)

/-- C4: For a record carrying the shadow sentinel stored hash, no
submitted password authenticates: the derived hash is the base64 of a
64-byte key (88 characters) and can never equal the trimmed sentinel
(16 characters), so the request is always answered with the login
challenge. -/
theorem C4_shadow_never_matches
    (d : String → String → String) (l : Nat) (st : AuthState) (u p : String)
    (r : UserRecord) (h : resolve st u = some r)
    (hsent : r.pwHash = " no password hash ")
    (hd : ∀ s q, IsDerivedHash (d s q)) :
    (validateCredentials d l st (some (u, p))).outcome = Outcome.loginPrompt := by
  have hne : jsTrim r.pwHash ≠ d (saltOf st u) p := by
    rw [hsent]
    exact sentinel_ne_derived _ (hd _ _)
  exact (validate_fail d l st u p r h hne).1

/-- Witness for C4 at a concrete input. -/
theorem C4_shadow_never_matches_witness :
    (validateCredentials constDerive 200 shadowState (some ("eve", "letmein"))).outcome =
      Outcome.loginPrompt :=
  C4_shadow_never_matches constDerive 200 shadowState "eve" "letmein" shadowRecord
    (by decide) rfl constDerive_isDerived

/-- C3 counterexample: with ceiling 1 and combined count exactly 1 (at
the ceiling), the claim demands an immediate internal-error denial, no
record creation, and a combined count never exceeding the ceiling; the
code instead creates the shadow record (the guard is `count > limit`,
not `count ≥ limit`), answers with the login challenge, and the combined
count becomes ceiling + 1. -/
theorem C3_ceiling_counterexample :
    usernameCount aliceState = 1 ∧
    (validateCredentials constDerive 1 aliceState (some ("eve", "x"))).outcome ≠
      Outcome.internalError ∧
    resolve (validateCredentials constDerive 1 aliceState (some ("eve", "x"))).state "eve" ≠
      none ∧
    usernameCount (validateCredentials constDerive 1 aliceState (some ("eve", "x"))).state =
      2 := by
  decide

/-- C3 (amended): for a username unknown to both stores, when the
combined count is at most the ceiling a shadow record with the sentinel
salt/hash is created and the attempt proceeds as a normal failed login
(challenge response, counter at 1); only when the combined count already
exceeds the ceiling is the request denied with an internal error and the
state left untouched; consequently the combined count never exceeds
ceiling + 1. -/
theorem C3_unknown_name_ceiling
    (d : String → String → String) (l : Nat) (st : AuthState) (u p : String)
    (hu : resolve st u = none) (hd : ∀ s q, IsDerivedHash (d s q)) :
    (usernameCount st > l →
      validateCredentials d l st (some (u, p)) =
        { outcome := Outcome.internalError, state := st,
          log := [LogEntry.tooManyInvalidNames] }) ∧
    (usernameCount st ≤ l →
      (validateCredentials d l st (some (u, p))).outcome = Outcome.loginPrompt ∧
      resolve (validateCredentials d l st (some (u, p))).state u =
        some { shadowRecord with loginAttempts := 1 } ∧
      usernameCount (validateCredentials d l st (some (u, p))).state =
        usernameCount st + 1) ∧
    (usernameCount st ≤ l + 1 →
      usernameCount (validateCredentials d l st (some (u, p))).state ≤ l + 1) := by
  have hk := (resolve_eq_none st u).1 hu
  have hPart1 : usernameCount st > l →
      validateCredentials d l st (some (u, p)) =
        { outcome := Outcome.internalError, state := st,
          log := [LogEntry.tooManyInvalidNames] } := by
    intro hcount
    simp [validateCredentials, hk.1, hk.2, hcount]
  have hPart2 : usernameCount st ≤ l →
      (validateCredentials d l st (some (u, p))).outcome = Outcome.loginPrompt ∧
      resolve (validateCredentials d l st (some (u, p))).state u =
        some { shadowRecord with loginAttempts := 1 } ∧
      usernameCount (validateCredentials d l st (some (u, p))).state =
        usernameCount st + 1 := by
    intro hcount
    have hcount' : ¬ usernameCount st > l := by omega
    have hv : validateCredentials d l st (some (u, p)) =
        finishLogin d { st with invalid_names := (u, shadowRecord) :: st.invalid_names }
          u p := by
      simp [validateCredentials, hk.1, hk.2, hcount']
    have hlI : lookup ((u, shadowRecord) :: st.invalid_names) u = some shadowRecord := by
      simp [lookup]
    have hfi := finishLogin_inv d
      { st with invalid_names := (u, shadowRecord) :: st.invalid_names } u p shadowRecord
      hk.1 hlI
    have hne : jsTrim shadowRecord.pwHash ≠ d "" p := sentinel_ne_derived _ (hd "" p)
    rw [hv, hfi, loginStep_fail u (d "" p) shadowRecord hne]
    refine ⟨rfl, ?_, ?_⟩
    · simp [resolve, hk.1, lookup_setRecord_self, hlI]
      decide
    · simp [usernameCount, length_setRecord]
      omega
  have hPart3 : usernameCount st ≤ l + 1 →
      usernameCount (validateCredentials d l st (some (u, p))).state ≤ l + 1 := by
    intro hcount
    by_cases hc : usernameCount st > l
    · rw [hPart1 hc]
      exact hcount
    · obtain ⟨-, -, hcnt⟩ := hPart2 (by omega)
      rw [hcnt]
      omega
  exact ⟨hPart1, hPart2, hPart3⟩

/-- Witness for the amended C3 at a concrete input (ceiling 2, combined
count 1). -/
theorem C3_unknown_name_ceiling_witness :
    resolve aliceState "eve" = none ∧
    (validateCredentials constDerive 2 aliceState (some ("eve", "x"))).outcome =
      Outcome.loginPrompt ∧
    resolve (validateCredentials constDerive 2 aliceState (some ("eve", "x"))).state "eve" =
      some { shadowRecord with loginAttempts := 1 } ∧
    usernameCount (validateCredentials constDerive 2 aliceState (some ("eve", "x"))).state =
      usernameCount aliceState + 1 := by
  have h := C3_unknown_name_ceiling constDerive 2 aliceState "eve" "x" (by decide)
    constDerive_isDerived
  exact ⟨by decide, (h.2.1 (by decide)).1, (h.2.1 (by decide)).2.1, (h.2.1 (by decide)).2.2⟩

/-- Manifest only at `/srv`, one level above the site root `/srv/content`;
everything else reads `ENOENT`. -/
def aboveRootFsm : FileSys :=
  fun cp => if cp = ["srv"] then ReadResult.ok "alice" else ReadResult.enoent

/-- C2 (code bug): with root `/srv/content` and the requested path equal
to the root, no manifest exists at any directory from the requested path
up to and including root (the root itself reads `ENOENT`), so the claim
demands an unconditional grant. The code instead keeps walking above
root, reads `/srv/.authorized_users`, and enforces it — here (HTTPS on,
no credentials supplied) by answering with a login challenge. The
boundary test `path.relative(checkPath, root) === path.basename(root)`
only fires at the parent of root, after that directory's manifest was
already read. -/
theorem C2_walk_escapes_root :
    aboveRootFsm ["srv", "content"] = ReadResult.enoent ∧
    (checkAuthorization aboveRootFsm "\n" true passthruDerive 200 none ["srv", "content"]
        ⟨[], []⟩ ["srv", "content"]).outcome = Outcome.loginPrompt ∧
    (checkAuthorization aboveRootFsm "\n" true passthruDerive 200 none ["srv", "content"]
        ⟨[], []⟩ ["srv", "content"]).outcome ≠ Outcome.granted := by
  decide

/-- C9: when the walk reaches a directory whose manifest read fails with
an error other than `ENOENT`, the failure is logged and that request is
never granted (without HTTPS it is a 500; with failed credential
validation it is that failure's response; with successful validation the
source throws on the undefined `data`). -/
theorem C9_read_error_never_grants
    (fsm : FileSys) (eol : String) (useHttps : Bool) (d : String → String → String)
    (l : Nat) (creds : Option (String × String)) (root : List String) (st : AuthState)
    (cp : List String) (h : hitsReadError fsm root cp = true) :
    LogEntry.authorizationFailure ∈
      (checkAuthorization fsm eol useHttps d l creds root st cp).log ∧
    (checkAuthorization fsm eol useHttps d l creds root st cp).outcome ≠ Outcome.granted :=
  hitsReadErrorGo_not_granted fsm eol useHttps d l creds root st (cp.length + 1) cp h

/-- Every manifest read fails with a non-`ENOENT` error. -/
def errFsm : FileSys := fun _ => ReadResult.error

/-- Witness for C9 at a concrete input: valid credentials over HTTPS, yet
the unreadable manifest is logged and the request is not granted. -/
theorem C9_read_error_witness :
    hitsReadError errFsm ["r"] ["r"] = true ∧
    (LogEntry.authorizationFailure ∈
        (checkAuthorization errFsm "\n" true passthruDerive 200 (some ("alice", "H")) ["r"]
          aliceState ["r"]).log ∧
      (checkAuthorization errFsm "\n" true passthruDerive 200 (some ("alice", "H")) ["r"]
          aliceState ["r"]).outcome ≠ Outcome.granted) :=
  ⟨by decide, C9_read_error_never_grants errFsm "\n" true passthruDerive 200
    (some ("alice", "H")) ["r"] aliceState ["r"] (by decide)⟩

/-- C10: whenever the walk finds a readable manifest and the server is
configured without HTTPS, the request is answered with 500 Internal
Error, regardless of credentials or manifest contents. -/
theorem C10_manifest_without_https
    (fsm : FileSys) (eol : String) (d : String → String → String) (l : Nat)
    (creds : Option (String × String)) (root : List String) (st : AuthState)
    (cp : List String) (h : findsManifest fsm root cp = true) :
    (checkAuthorization fsm eol false d l creds root st cp).outcome =
      Outcome.internalError :=
  findsManifestGo_internalError fsm eol d l creds root st (cp.length + 1) cp h

/-- Manifest at `/r` naming `alice`; everything else reads `ENOENT`. -/
def manifestFsm : FileSys :=
  fun cp => if cp = ["r"] then ReadResult.ok "alice" else ReadResult.enoent

/-- Witness for C10 at a concrete input: the listed user with the correct
password still receives 500 when HTTPS is off. -/
theorem C10_manifest_without_https_witness :
    findsManifest manifestFsm ["r"] ["r", "private"] = true ∧
    (checkAuthorization manifestFsm "\n" false passthruDerive 200 (some ("alice", "H")) ["r"]
        aliceState ["r", "private"]).outcome = Outcome.internalError :=
  ⟨by decide, C10_manifest_without_https manifestFsm "\n" passthruDerive 200
    (some ("alice", "H")) ["r"] aliceState ["r", "private"] (by decide)⟩

/-- C5 (amended): when the walk's current directory has a readable
manifest, HTTPS is on and the caller's credentials validate, the request
is granted iff the identity's name appears as an exact full line of the
manifest (split on the platform's line break), compared without any
trimming; a name that is a strict prefix or suffix of an authorized line
is therefore not authorized. -/
theorem C5_manifest_exact_line_match
    (fsm : FileSys) (eol : String) (d : String → String → String) (l : Nat)
    (root : List String) (st : AuthState) (cp : List String) (content name pw : String)
    (hok : fsm cp = ReadResult.ok content)
    (hval : (validateCredentials d l st (some (name, pw))).outcome = Outcome.granted) :
    (checkAuthorization fsm eol true d l (some (name, pw)) root st cp).outcome =
        Outcome.granted ↔ (jsSplit eol content).contains name = true := by
  unfold checkAuthorization
  rw [checkAuthorizationGo]
  simp only [hok]
  by_cases hc : name ∈ jsSplit eol content <;>
    simp [authFound, hval, getUserName, hc]

/-- `alice` with stored hash `"pw"` (so the password `"pw"` validates
under `passthruDerive`). -/
def alicePwState : AuthState := ⟨[("alice", ⟨"s", "pw", false, 0⟩)], []⟩

/-- Manifest at `/r` whose single line carries a trailing space. -/
def trailingSpaceFsm : FileSys :=
  fun cp => if cp = ["r"] then ReadResult.ok "alice " else ReadResult.enoent

/-- C5 counterexample: the manifest line `"alice "` trims to the
authenticated identity `alice`, so the claim (comparison after trimming)
demands a grant; the code compares untrimmed lines and responds 403. -/
theorem C5_trim_counterexample :
    ((jsSplit "\n" "alice ").map jsTrim).contains "alice" = true ∧
    (validateCredentials passthruDerive 200 alicePwState (some ("alice", "pw"))).outcome =
      Outcome.granted ∧
    (checkAuthorization trailingSpaceFsm "\n" true passthruDerive 200 (some ("alice", "pw"))
        ["r"] alicePwState ["r"]).outcome = Outcome.forbidden := by
  decide

/-- Manifest at `/r` with two exact lines `bob` and `alice`. -/
def exactFsm : FileSys :=
  fun cp => if cp = ["r"] then ReadResult.ok "bob\nalice" else ReadResult.enoent

/-- Witness for the amended C5 at a concrete input. -/
theorem C5_manifest_exact_line_match_witness :
    exactFsm ["r"] = ReadResult.ok "bob\nalice" ∧
    (validateCredentials passthruDerive 200 alicePwState (some ("alice", "pw"))).outcome =
      Outcome.granted ∧
    ((checkAuthorization exactFsm "\n" true passthruDerive 200 (some ("alice", "pw")) ["r"]
        alicePwState ["r"]).outcome = Outcome.granted ↔
      (jsSplit "\n" "bob\nalice").contains "alice" = true) :=
  ⟨by decide, by decide,
    C5_manifest_exact_line_match exactFsm "\n" passthruDerive 200 ["r"] alicePwState ["r"]
      "bob\nalice" "alice" "pw" (by decide) (by decide)⟩

/-- C6 counterexample: with exactly 100 requests pending, the next valid
request is accepted — the hash is derived, the record is appended and the
counter becomes 101 — because the source's guard is
`openAccountRequests > 100`, not `>= 100`. -/
theorem C6_at_100_counterexample :
    (sendAccountPost true 100 "bob123" "hunter2" true).response =
      AccountResponse.accountRequested200 ∧
    (sendAccountPost true 100 "bob123" "hunter2" true).hashDerived = true ∧
    (sendAccountPost true 100 "bob123" "hunter2" true).appended = true ∧
    (sendAccountPost true 100 "bob123" "hunter2" true).openAccountRequests = 101 := by
  decide

/-- C6 (amended): only when the open-request counter exceeds 100 (at
least 101 pending) is a valid POSTed account request rejected with 500,
with no hash derivation, no append and no counter change; with exactly
100 pending the request is still accepted and the counter reaches 101. -/
theorem C6_open_request_ceiling
    (n : Nat) (username password : String) (deriveOk : Bool)
    (hv : usernameValidationFails username = false) :
    (100 < n →
      sendAccountPost true n username password deriveOk =
        { response := AccountResponse.tooManyOpen500, hashDerived := false, appended := false,
          openAccountRequests := n, log := [LogEntry.tooManyOpenAccountRequests] }) ∧
    sendAccountPost true 100 username password true =
      { response := AccountResponse.accountRequested200, hashDerived := true, appended := true,
        openAccountRequests := 101, log := [LogEntry.newAccountRequest username] } := by
  constructor
  · intro hn
    simp [sendAccountPost, hv, hn]
  · simp [sendAccountPost, hv]

/-- Witness for the amended C6 at a concrete input. -/
theorem C6_open_request_ceiling_witness :
    usernameValidationFails "bob123" = false ∧
    sendAccountPost true 101 "bob123" "pw" true =
      { response := AccountResponse.tooManyOpen500, hashDerived := false, appended := false,
        openAccountRequests := 101, log := [LogEntry.tooManyOpenAccountRequests] } ∧
    sendAccountPost true 100 "bob123" "pw" true =
      { response := AccountResponse.accountRequested200, hashDerived := true, appended := true,
        openAccountRequests := 101, log := [LogEntry.newAccountRequest "bob123"] } := by
  have h := C6_open_request_ceiling 101 "bob123" "pw" true (by decide)
  exact ⟨by decide, h.1 (by decide), h.2⟩

/-- Modelled from the spec: the claim's acceptance condition for C7, a
username "consisting solely of letters and digits". Used only to compare
the claim's wording against the validator actually implemented. -/
def specLettersDigitsOnly (s : String) : Bool :=
  s.data.all (fun c => c.isAlpha || c.isDigit)

/-- C7 counterexample: `"bob_"` is accepted by the validator (the regex
class `A-z` also admits `[ \ ] ^ _` and the backtick), but it does not
consist solely of letters and digits, refuting the claimed equivalence. -/
theorem C7_letters_digits_counterexample :
    usernameValidationFails "bob_" = false ∧
    specLettersDigitsOnly "bob_" = false ∧
    ("bob_" : String).length ≤ 64 := by
  decide

theorem regexCharInClass_iff (c : Char) :
    regexCharInClass c = true ↔
      ((65 ≤ c.toNat ∧ c.toNat ≤ 122) ∨ (48 ≤ c.toNat ∧ c.toNat ≤ 57)) := by
  unfold regexCharInClass
  simp only [Bool.or_eq_true, Bool.and_eq_true, decide_eq_true_eq]
  constructor
  · rintro ((h1 | h2) | h3)
    · exact Or.inl h1
    · subst h2
      exact Or.inl (by decide)
    · exact Or.inr h3
  · rintro (h1 | h2)
    · exact Or.inl (Or.inl h1)
    · exact Or.inr h2

/-- C7 (amended): the validator accepts a username iff its length is at
most 64 and every character's code is in 65-122 (ASCII letters plus the
six punctuation marks `[ \ ] ^ _` and backtick between them) or is an
ASCII digit; `"bob; rm -rf"` is rejected and `"bob123"` accepted. -/
theorem C7_username_validator (s : String) :
    (usernameValidationFails s = false ↔
      ((∀ c ∈ s.data, (65 ≤ c.toNat ∧ c.toNat ≤ 122) ∨ (48 ≤ c.toNat ∧ c.toNat ≤ 57)) ∧
        s.length ≤ 64)) ∧
    usernameValidationFails "bob; rm -rf" = true ∧
    usernameValidationFails "bob123" = false := by
  refine ⟨?_, by decide, by decide⟩
  unfold usernameValidationFails
  constructor
  · intro h
    have h1 : s.data.any (fun c => !(regexCharInClass c)) = false := by
      cases hx : s.data.any (fun c => !(regexCharInClass c)) <;> simp [hx] at h ⊢
    have h2 : ¬ (s.length > 64) := by
      intro hgt
      simp [h1, hgt] at h
    refine ⟨?_, by omega⟩
    intro c hc
    have := List.any_eq_false.1 h1 c hc
    exact (regexCharInClass_iff c).1 (by simpa using this)
  · rintro ⟨hall, hlen⟩
    have h1 : s.data.any (fun c => !(regexCharInClass c)) = false := by
      refine List.any_eq_false.2 ?_
      intro c hc
      simpa using (regexCharInClass_iff c).2 (hall c hc)
    simp [h1]
    omega

end WebHost

